import Mathlib

/-!
Verification of the two-phase-commit (2PC) example: a coordinator state
machine ("dex") driving prepare/abort/commit calls against participants,
and a participant protocol handler ("ledger_token_1") gating per-resource
locks with application-level validator/mutator callbacks.

The Rust sources are embedded shallowly: the `thread_local!` maps become
explicit association-list states threaded through the functions,
`.unwrap()`/`assert!` failures (canister traps) become `Option.none`, and
`u64`/`i64` arithmetic becomes `Nat`/`Int` with explicit bounds where the
source uses checked arithmetic.
-/

set_option maxHeartbeats 1000000

/-- Association-list lookup: first entry whose key matches, mirroring a
`BTreeMap::get` (the maps built by the source never hold duplicate keys). -/
def mapGet {κ α : Type} [DecidableEq κ] (m : List (κ × α)) (k : κ) : Option α :=
  match m with
  | [] => none
  | (k', v) :: rest => if k' = k then some v else mapGet rest k

/-- Association-list insert-or-replace, mirroring `BTreeMap::insert`. -/
def mapInsert {κ α : Type} [DecidableEq κ] (m : List (κ × α)) (k : κ) (v : α) :
    List (κ × α) :=
  match m with
  | [] => [(k, v)]
  | (k', v') :: rest =>
    if k' = k then (k, v) :: rest else (k', v') :: mapInsert rest k v

namespace LedgerToken1

/-- Per-resource lock state of the participant
(`ledger_token_1/atomic_transactions.rs`, `TransactionStatus`; the
misspelling `Comitted` is the source's). -/
inductive TransactionStatus : Type
  | Prepared (tid : Nat)
  | Aborted
  | Comitted
deriving DecidableEq, Repr

/-- The participant's lock table: `TokenName → TransactionStatus`
(the source's `PC_STATE` `BTreeMap`). -/
abbrev LockTable : Type := List (String × TransactionStatus)

/-- `ledger_token_1/atomic_transactions.rs::prepare_transaction`: decide on
the current lock state; re-prepare by the same transaction is accepted,
a lock held by another transaction rejects, otherwise the caller-supplied
`prepare_func` (validator) decides; on a `true` verdict the resource is
(re-)inserted as `Prepared tid`. Returns the reply together with the new
lock table. -/
def prepare_transaction {T : Type} (tid : Nat) (resource : String)
    (balance_change : T) (prepare_func : String → T → Bool)
    (state : LockTable) : Bool × LockTable :=
  let r : Bool :=
    match mapGet state resource with
    | some (.Prepared prepared_tid) => if tid = prepared_tid then true else false
    | some .Aborted | some .Comitted | none => prepare_func resource balance_change
  if r then (r, mapInsert state resource (.Prepared tid)) else (r, state)

/-- `ledger_token_1/atomic_transactions.rs::abort_transaction`: set the
resource to `Aborted` only when it is currently `Prepared tid` for this
very transaction; otherwise leave the table untouched. Never fails. -/
def abort_transaction (tid : Nat) (resource : String) (state : LockTable) :
    LockTable :=
  if mapGet state resource = some (.Prepared tid) then
    mapInsert state resource .Aborted
  else state

/-- `ledger_token_1/atomic_transactions.rs::commit_transaction`: the
`assert_eq!` demands the resource be `Prepared tid`; on success the
caller-supplied `commit_func` (mutator) is applied to the application store
and the lock becomes `Comitted`. A failed assertion traps: `none`. -/
def commit_transaction {T σ : Type} (tid : Nat) (resource : String)
    (balance_change : T) (commit_func : String → T → σ → σ)
    (state : LockTable) (store : σ) : Option (LockTable × σ) :=
  if mapGet state resource = some (.Prepared tid) then
    some (mapInsert state resource .Comitted,
          commit_func resource balance_change store)
  else none

/-- Largest value of Rust's `u64`. -/
def U64_MAX : Nat := 2 ^ 64 - 1

/-- Rust's `u64::checked_add_signed`: `some` exactly when the mathematical
sum stays within `[0, 2^64)`. -/
def checked_add_signed (b : Nat) (d : Int) : Option Nat :=
  if 0 ≤ (b : Int) + d ∧ (b : Int) + d ≤ (U64_MAX : Int) then
    some ((b : Int) + d).toNat
  else none

/-- The ledger's balances: `TokenName → TokenBalance` (`BALANCES`). -/
abbrev Balances : Type := List (String × Nat)

/-- `ledger_token_1/lib.rs::prepare_balance`: the validator accepts exactly
when the token has a registered balance and the checked signed addition of
the requested change succeeds. Reads the store, never writes. -/
def prepare_balance (balances : Balances) (resource : String)
    (balance_change : Int) : Bool :=
  match mapGet balances resource with
  | some resource_balance => (checked_add_signed resource_balance balance_change).isSome
  | none => false

/-- `ledger_token_1/lib.rs::commit_balance`: the mutator; the two
`.expect(..)` panics (missing balance, overflowing addition) become
`none`. -/
def commit_balance (balances : Balances) (resource : String)
    (balance_change : Int) : Option Balances :=
  match mapGet balances resource with
  | none => none
  | some b =>
    match checked_add_signed b balance_change with
    | none => none
    | some nb => some (mapInsert balances resource nb)

end LedgerToken1

namespace Dex

/-- Prepare-phase timeout: `ABORT_PREPARE_AFTER_NS` (10 s in ns). -/
def ABORT_PREPARE_AFTER_NS : Nat := 10 * 1000 * 1000 * 1000

/-- Minimum gap between actions on one transaction: `RATE_LIMIT_TIMEOUT_NS`
(5 s in ns). -/
def RATE_LIMIT_TIMEOUT_NS : Nat := 5 * 1000 * 1000 * 1000

/-- Coordinator transaction phase (`dex/atomic_transactions.rs`,
`TransactionStatus`). -/
inductive TransactionStatus : Type
  | Preparing
  | Aborting
  | Committing
  | Committed
  | Aborted
deriving DecidableEq, Repr

/-- One tracked outbound call (`dex/atomic_transactions.rs`, `Call`).
`CanisterId` (a `Principal`) is embedded as an opaque `Nat`, the payload as
raw bytes. -/
structure Call : Type where
  target : Nat
  method : String
  payload : List Nat
  num_tries : Nat
  num_success : Nat
  num_fail : Nat
deriving DecidableEq, Repr

/-- `if success { num_success += 1 } else { num_fail += 1 }` — the counter
update shared by the three reply handlers. -/
def recordReply (success : Bool) (c : Call) : Call :=
  if success then { c with num_success := c.num_success + 1 }
  else { c with num_fail := c.num_fail + 1 }

/-- `iter_mut().find(|call| call.target == canister_id)` followed by a
mutation of the found record: rewrite the first matching record, `none`
when no record matches (the source's `.unwrap()` then traps). -/
def updateFirst (canister_id : Nat) (f : Call → Call) :
    List Call → Option (List Call)
  | [] => none
  | c :: cs =>
    if c.target = canister_id then some (f c :: cs)
    else (updateFirst canister_id f cs).map (fun cs' => c :: cs')

/-- `calls.iter().filter(|call| call.num_success > 0).count()`. -/
def num_succ_calls (calls : List Call) : Nat :=
  (calls.filter (fun c => c.num_success > 0)).length

/-- `calls.iter().filter(|call| call.num_fail > 0).count()`. -/
def num_fail_calls (calls : List Call) : Nat :=
  (calls.filter (fun c => c.num_fail > 0)).length

/-- Per-transaction coordinator state (`dex/atomic_transactions.rs`,
`TransactionState`). -/
structure TransactionState : Type where
  total_number_of_children : Nat
  transaction_status : TransactionStatus
  pending_prepare_calls : List Call
  pending_abort_calls : List Call
  pending_commit_calls : List Call
  last_action_time : Nat
  prepare_start_time : Nat
deriving DecidableEq, Repr

/-- `TransactionState::prepare_received`: asserts the phase is `Preparing`
or `Aborting` (else trap: `none`), bumps the matched record's counter, then
recomputes the phase: all records successful → `Committing`, and — applied
afterwards, so it wins — any record failed → `Aborting`. -/
def TransactionState.prepare_received (s : TransactionState) (success : Bool)
    (canister_id : Nat) : Option TransactionState :=
  if s.transaction_status = .Preparing ∨ s.transaction_status = .Aborting then
    (updateFirst canister_id (recordReply success) s.pending_prepare_calls).map
      (fun calls =>
        let s₁ : TransactionState := { s with pending_prepare_calls := calls }
        let s₂ : TransactionState :=
          if num_succ_calls calls = s₁.total_number_of_children then
            { s₁ with transaction_status := .Committing }
          else s₁
        if num_fail_calls calls > 0 then
          { s₂ with transaction_status := .Aborting }
        else s₂)
  else none

/-- `TransactionState::abort_received`: asserts the phase is `Aborting`
(else trap), bumps the matched abort record's counter, and completes to
`Aborted` when every abort record has a success. -/
def TransactionState.abort_received (s : TransactionState) (success : Bool)
    (canister_id : Nat) : Option TransactionState :=
  if s.transaction_status = .Aborting then
    (updateFirst canister_id (recordReply success) s.pending_abort_calls).map
      (fun calls =>
        let s₁ : TransactionState := { s with pending_abort_calls := calls }
        if num_succ_calls calls = s₁.total_number_of_children then
          { s₁ with transaction_status := .Aborted }
        else s₁)
  else none

/-- `TransactionState::commit_received`: asserts the phase is `Committing`
(else trap), bumps the matched commit record's counter, and completes to
`Committed` when every commit record has a success. -/
def TransactionState.commit_received (s : TransactionState) (success : Bool)
    (canister_id : Nat) : Option TransactionState :=
  if s.transaction_status = .Committing then
    (updateFirst canister_id (recordReply success) s.pending_commit_calls).map
      (fun calls =>
        let s₁ : TransactionState := { s with pending_commit_calls := calls }
        if num_succ_calls calls = s₁.total_number_of_children then
          { s₁ with transaction_status := .Committed }
        else s₁)
  else none

/-- `TransactionState::register_prepare_call`: bump `num_tries` of the
matched prepare record (trap when no record matches). -/
def TransactionState.register_prepare_call (s : TransactionState)
    (canister_id : Nat) : Option TransactionState :=
  (updateFirst canister_id (fun c => { c with num_tries := c.num_tries + 1 })
      s.pending_prepare_calls).map
    (fun calls => { s with pending_prepare_calls := calls })

/-- `TransactionState::register_abort_call`. -/
def TransactionState.register_abort_call (s : TransactionState)
    (canister_id : Nat) : Option TransactionState :=
  (updateFirst canister_id (fun c => { c with num_tries := c.num_tries + 1 })
      s.pending_abort_calls).map
    (fun calls => { s with pending_abort_calls := calls })

/-- `TransactionState::register_commit_call`. -/
def TransactionState.register_commit_call (s : TransactionState)
    (canister_id : Nat) : Option TransactionState :=
  (updateFirst canister_id (fun c => { c with num_tries := c.num_tries + 1 })
      s.pending_commit_calls).map
    (fun calls => { s with pending_commit_calls := calls })

/-- Result of `get_transaction_state` (`TransactionResult`). -/
structure TransactionResult : Type where
  transaction_number : Nat
  state : TransactionStatus
deriving DecidableEq, Repr

/-- The coordinator's transaction table (`TransactionList`). -/
structure TransactionList : Type where
  next_transaction_number : Nat
  transactions : List (Nat × TransactionState)
deriving DecidableEq, Repr

/-- `get_transaction_status`. -/
def get_transaction_status (s : TransactionState) : TransactionStatus :=
  s.transaction_status

/-- `get_transaction_state`: `with_transaction` unwraps the table lookup,
so an unknown transaction id traps (`none`). -/
def get_transaction_state (l : TransactionList) (tid : Nat) :
    Option TransactionResult :=
  (mapGet l.transactions tid).map (fun s => ⟨tid, s.transaction_status⟩)

/-- Rewrite the entry at key `k` with a fallible transformer; `none` both
when the key is absent (the source unwraps) and when the transformer
itself traps. -/
def mapUpdate {κ α : Type} [DecidableEq κ] (m : List (κ × α)) (k : κ)
    (f : α → Option α) : Option (List (κ × α)) :=
  match m with
  | [] => none
  | (k', v) :: rest =>
    if k' = k then (f v).map (fun v' => (k', v') :: rest)
    else (mapUpdate rest k f).map (fun m' => (k', v) :: m')

/-- `with_transaction_mut tid f`: unwrap the table entry and apply a
fallible state transformer to it. -/
def withTransactionMut (l : TransactionList) (tid : Nat)
    (f : TransactionState → Option TransactionState) : Option TransactionList :=
  (mapUpdate l.transactions tid f).map
    (fun t => { l with transactions := t })

/-- Outcome of one raw inter-canister call (`call_raw` + `Decode!`):
`.error` is a transport failure, `.ok b` a delivered reply decoding to
`b`. Abort/commit replies carry no boolean; only `isOk` is consulted. -/
abbrev RawResult : Type := Except Unit Bool

/-- The prepare branch of `transaction_loop` maps a transport failure to
`success = false` and otherwise uses the decoded boolean reply. -/
def prepare_reply_success (r : RawResult) : Bool :=
  match r with
  | .ok b => b
  | .error _ => false

/-- `call_raw_result.is_ok()` — the success bit fed to
`abort_received`/`commit_received`. -/
def raw_result_is_ok (r : RawResult) : Bool :=
  match r with
  | .ok _ => true
  | .error _ => false

/-- The `Preparing` branch of `transaction_loop`'s call loop: walk the
snapshot of the prepare records; for each without a success yet, stamp
`last_action_time`, register the try, issue the call (outcome given by the
oracle `raw`) and feed the result to `prepare_received`. -/
def run_prepare_calls (raw : Call → RawResult) (now : Nat) (tid : Nat) :
    List Call → TransactionList → Option TransactionList
  | [], l => some l
  | call :: rest, l =>
    if call.num_success > 0 then run_prepare_calls raw now tid rest l
    else
      (withTransactionMut l tid
          (fun s => some { s with last_action_time := now })).bind (fun l₁ =>
      (withTransactionMut l₁ tid
          (fun s => s.register_prepare_call call.target)).bind (fun l₂ =>
      (withTransactionMut l₂ tid
          (fun s => s.prepare_received (prepare_reply_success (raw call))
            call.target)).bind (fun l₃ =>
      run_prepare_calls raw now tid rest l₃)))

/-- The `Aborting` branch of `transaction_loop`'s call loop. -/
def run_abort_calls (raw : Call → RawResult) (now : Nat) (tid : Nat) :
    List Call → TransactionList → Option TransactionList
  | [], l => some l
  | call :: rest, l =>
    if call.num_success > 0 then run_abort_calls raw now tid rest l
    else
      (withTransactionMut l tid
          (fun s => some { s with last_action_time := now })).bind (fun l₁ =>
      (withTransactionMut l₁ tid
          (fun s => s.register_abort_call call.target)).bind (fun l₂ =>
      (withTransactionMut l₂ tid
          (fun s => s.abort_received (raw_result_is_ok (raw call))
            call.target)).bind (fun l₃ =>
      run_abort_calls raw now tid rest l₃)))

/-- The `Committing` branch of `transaction_loop`'s call loop. -/
def run_commit_calls (raw : Call → RawResult) (now : Nat) (tid : Nat) :
    List Call → TransactionList → Option TransactionList
  | [], l => some l
  | call :: rest, l =>
    if call.num_success > 0 then run_commit_calls raw now tid rest l
    else
      (withTransactionMut l tid
          (fun s => some { s with last_action_time := now })).bind (fun l₁ =>
      (withTransactionMut l₁ tid
          (fun s => s.register_commit_call call.target)).bind (fun l₂ =>
      (withTransactionMut l₂ tid
          (fun s => s.commit_received (raw_result_is_ok (raw call))
            call.target)).bind (fun l₃ =>
      run_commit_calls raw now tid rest l₃)))

/-- One invocation of `transaction_loop(tid)` with the clock at `now` and
call outcomes given by the oracle `raw`, run without interleaving: read the
status (trapping on an unknown id), rate-limit, dispatch on the phase
(prepare timeout, or the phase's call loop over a snapshot of its records),
then reset `last_action_time` when the phase changed and return the
resulting state. -/
def transaction_loop (raw : Call → RawResult) (now : Nat)
    (l : TransactionList) (tid : Nat) : Option (TransactionList × TransactionResult) :=
  (mapGet l.transactions tid).bind (fun s₀ =>
    let initial_transaction_status := s₀.transaction_status
    if now ≤ s₀.last_action_time + RATE_LIMIT_TIMEOUT_NS then
      (get_transaction_state l tid).map (fun r => (l, r))
    else
      let step : Option TransactionList :=
        match initial_transaction_status with
        | .Preparing =>
          if now > s₀.prepare_start_time + ABORT_PREPARE_AFTER_NS then
            withTransactionMut l tid
              (fun s => some { s with transaction_status := .Aborting })
          else
            run_prepare_calls raw now tid s₀.pending_prepare_calls l
        | .Aborting => run_abort_calls raw now tid s₀.pending_abort_calls l
        | .Committing => run_commit_calls raw now tid s₀.pending_commit_calls l
        | .Committed => some l
        | .Aborted => some l
      step.bind (fun l₁ =>
        (mapGet l₁.transactions tid).bind (fun s₁ =>
          if s₁.transaction_status ≠ initial_transaction_status then
            (withTransactionMut l₁ tid
                (fun s => some { s with last_action_time := 0 })).bind
              (fun l₂ => (get_transaction_state l₂ tid).map (fun r => (l₂, r)))
          else (get_transaction_state l₁ tid).map (fun r => (l₁, r)))))

end Dex

/-! ### Concrete states used to exercise the definitions -/

/-- A transport oracle on which every call fails at the transport level. -/
def exRawErr : Dex.Call → Dex.RawResult := fun _ => Except.error ()

/-- Two participants; participant 2 voted "no" (one recorded failure),
participant 1 voted "yes"; the phase is already `Aborting`. -/
def exC1 : Dex.TransactionState :=
  { total_number_of_children := 2
    transaction_status := .Aborting
    pending_prepare_calls :=
      [⟨1, "prepare_transaction", [], 1, 1, 0⟩, ⟨2, "prepare_transaction", [], 1, 0, 1⟩]
    pending_abort_calls :=
      [⟨1, "abort_transaction", [], 0, 0, 0⟩, ⟨2, "abort_transaction", [], 0, 0, 0⟩]
    pending_commit_calls :=
      [⟨1, "commit_transaction", [], 0, 0, 0⟩, ⟨2, "commit_transaction", [], 0, 0, 0⟩]
    last_action_time := 0
    prepare_start_time := 0 }

/-- `exC1` after the straggler positive prepare reply from participant 2:
every prepare record now has a success, yet the phase stays `Aborting`. -/
def exC1' : Dex.TransactionState :=
  { exC1 with
    pending_prepare_calls :=
      [⟨1, "prepare_transaction", [], 1, 1, 0⟩, ⟨2, "prepare_transaction", [], 1, 1, 1⟩]
    transaction_status := .Aborting }

/-- A single-participant transaction in `Preparing`, its prepare call still
unanswered. -/
def exC2 : Dex.TransactionState :=
  { total_number_of_children := 1
    transaction_status := .Preparing
    pending_prepare_calls := [⟨1, "prepare_transaction", [], 1, 0, 0⟩]
    pending_abort_calls := [⟨1, "abort_transaction", [], 0, 0, 0⟩]
    pending_commit_calls := [⟨1, "commit_transaction", [], 0, 0, 0⟩]
    last_action_time := 0
    prepare_start_time := 0 }

/-- `exC2` after its lone positive prepare reply: unanimous, `Committing`. -/
def exC2' : Dex.TransactionState :=
  { exC2 with
    pending_prepare_calls := [⟨1, "prepare_transaction", [], 1, 1, 0⟩]
    transaction_status := .Committing }

/-- A transaction already in `Committing` (all prepare votes in), at which a
stale prepare reply may still arrive. -/
def exC5 : Dex.TransactionState :=
  { total_number_of_children := 2
    transaction_status := .Committing
    pending_prepare_calls :=
      [⟨1, "prepare_transaction", [], 1, 1, 0⟩, ⟨2, "prepare_transaction", [], 2, 1, 0⟩]
    pending_abort_calls :=
      [⟨1, "abort_transaction", [], 0, 0, 0⟩, ⟨2, "abort_transaction", [], 0, 0, 0⟩]
    pending_commit_calls :=
      [⟨1, "commit_transaction", [], 0, 0, 0⟩, ⟨2, "commit_transaction", [], 0, 0, 0⟩]
    last_action_time := 0
    prepare_start_time := 0 }

/-- A fresh single-participant transaction registered in the table under
id 0, nothing sent yet. -/
def exC6s : Dex.TransactionState :=
  { total_number_of_children := 1
    transaction_status := .Preparing
    pending_prepare_calls := [⟨1, "prepare_transaction", [], 0, 0, 0⟩]
    pending_abort_calls := [⟨1, "abort_transaction", [], 0, 0, 0⟩]
    pending_commit_calls := [⟨1, "commit_transaction", [], 0, 0, 0⟩]
    last_action_time := 0
    prepare_start_time := 0 }

/-- The coordinator table holding only `exC6s`. -/
def exC6 : Dex.TransactionList := ⟨1, [(0, exC6s)]⟩

/-- An `Aborting` transaction whose abort call is outstanding. -/
def exC6a : Dex.TransactionState :=
  { total_number_of_children := 1
    transaction_status := .Aborting
    pending_prepare_calls := [⟨1, "prepare_transaction", [], 1, 0, 1⟩]
    pending_abort_calls := [⟨1, "abort_transaction", [], 1, 0, 0⟩]
    pending_commit_calls := [⟨1, "commit_transaction", [], 0, 0, 0⟩]
    last_action_time := 0
    prepare_start_time := 0 }

/-- `exC6a` after a transport failure of the abort call: one more recorded
failure, phase still `Aborting`. -/
def exC6a' : Dex.TransactionState :=
  { exC6a with pending_abort_calls := [⟨1, "abort_transaction", [], 1, 0, 1⟩] }

/-- Two participants in `Preparing`: participant 1 already voted "yes",
participant 2 has not answered; no recorded failure anywhere. -/
def exC7s : Dex.TransactionState :=
  { total_number_of_children := 2
    transaction_status := .Preparing
    pending_prepare_calls :=
      [⟨1, "prepare_transaction", [], 1, 1, 0⟩, ⟨2, "prepare_transaction", [], 1, 0, 0⟩]
    pending_abort_calls :=
      [⟨1, "abort_transaction", [], 0, 0, 0⟩, ⟨2, "abort_transaction", [], 0, 0, 0⟩]
    pending_commit_calls :=
      [⟨1, "commit_transaction", [], 0, 0, 0⟩, ⟨2, "commit_transaction", [], 0, 0, 0⟩]
    last_action_time := 0
    prepare_start_time := 0 }

/-- The coordinator table holding only `exC7s` under id 0. -/
def exC7 : Dex.TransactionList := ⟨1, [(0, exC7s)]⟩

/-- A lock table on which transaction 7 holds the only resource. -/
def exC3lock : LedgerToken1.LockTable := [("ICP", .Prepared 7)]

/-- A lock table on which transaction 3 holds the only resource. -/
def exC4lock : LedgerToken1.LockTable := [("ICP", .Prepared 3)]

/-- A lock table whose only resource is already committed. -/
def exC4dup : LedgerToken1.LockTable := [("ICP", .Comitted)]

/-- A one-token balance store. -/
def exC9bal : LedgerToken1.Balances := [("ICP", 10000)]

/-- An empty coordinator transaction table. -/
def exC10 : Dex.TransactionList := ⟨0, []⟩

/-! ### Lemmas about the association-list maps -/

theorem mapGet_mapInsert_self {κ α : Type} [DecidableEq κ]
    (m : List (κ × α)) (k : κ) (v : α) : mapGet (mapInsert m k v) k = some v := by
  induction m with
  | nil => simp [mapGet, mapInsert]
  | cons hd tl ih =>
    obtain ⟨k', v'⟩ := hd
    by_cases h : k' = k
    · simp [mapGet, mapInsert, h]
    · simp [mapGet, mapInsert, h, ih]

theorem mapGet_mapInsert_ne {κ α : Type} [DecidableEq κ]
    (m : List (κ × α)) (k k' : κ) (v : α) (h : k' ≠ k) :
    mapGet (mapInsert m k v) k' = mapGet m k' := by
  have hne : ¬(k = k') := fun hh => h hh.symm
  induction m with
  | nil => simp [mapGet, mapInsert, hne]
  | cons hd tl ih =>
    obtain ⟨k₀, v₀⟩ := hd
    by_cases h₀ : k₀ = k
    · subst h₀
      simp [mapGet, mapInsert, hne]
    · by_cases h₁ : k₀ = k'
      · simp [mapGet, mapInsert, h₀, h₁, h]
      · simp [mapGet, mapInsert, h₀, h₁, h, ih]

/-! ### Lemmas about the coordinator's call records and reply handlers -/

namespace Dex

theorem recordReply_num_fail_le (b : Bool) (c : Call) :
    c.num_fail ≤ (recordReply b c).num_fail := by
  cases b <;> simp [recordReply]

theorem recordReply_false_num_success (c : Call) :
    (recordReply false c).num_success = c.num_success := by
  simp [recordReply]

theorem recordReply_false_num_fail (c : Call) :
    (recordReply false c).num_fail = c.num_fail + 1 := by
  simp [recordReply]

theorem updateFirst_length {cid : Nat} {f : Call → Call}
    {calls calls' : List Call} (h : updateFirst cid f calls = some calls') :
    calls'.length = calls.length := by
  induction calls generalizing calls' with
  | nil => simp [updateFirst] at h
  | cons c cs ih =>
    rw [updateFirst] at h
    split at h
    · cases h
      simp
    · rw [Option.map_eq_some'] at h
      obtain ⟨cs', hcs', rfl⟩ := h
      simp [ih hcs']

theorem updateFirst_exists_mem {cid : Nat} {f : Call → Call}
    {calls calls' : List Call} (P : Call → Prop) (hf : ∀ c, P c → P (f c))
    (h : updateFirst cid f calls = some calls') (hex : ∃ c ∈ calls, P c) :
    ∃ c ∈ calls', P c := by
  induction calls generalizing calls' with
  | nil => simp [updateFirst] at h
  | cons c cs ih =>
    rw [updateFirst] at h
    obtain ⟨c₀, hc₀, hP⟩ := hex
    split at h
    · cases h
      rcases List.mem_cons.mp hc₀ with rfl | hmem
      · exact ⟨f c₀, List.mem_cons_self _ _, hf _ hP⟩
      · exact ⟨c₀, List.mem_cons_of_mem _ hmem, hP⟩
    · rw [Option.map_eq_some'] at h
      obtain ⟨cs', hcs', rfl⟩ := h
      rcases List.mem_cons.mp hc₀ with rfl | hmem
      · exact ⟨c₀, List.mem_cons_self _ _, hP⟩
      · obtain ⟨c₁, hc₁, hP₁⟩ := ih hcs' ⟨c₀, hmem, hP⟩
        exact ⟨c₁, List.mem_cons_of_mem _ hc₁, hP₁⟩

theorem updateFirst_exists_updated {cid : Nat} {f : Call → Call}
    {calls calls' : List Call} (P : Call → Prop) (hf : ∀ c, P (f c))
    (h : updateFirst cid f calls = some calls') : ∃ c ∈ calls', P c := by
  induction calls generalizing calls' with
  | nil => simp [updateFirst] at h
  | cons c cs ih =>
    rw [updateFirst] at h
    split at h
    · cases h
      exact ⟨f c, List.mem_cons_self _ _, hf c⟩
    · rw [Option.map_eq_some'] at h
      obtain ⟨cs', hcs', rfl⟩ := h
      obtain ⟨c₁, hc₁, hP₁⟩ := ih hcs'
      exact ⟨c₁, List.mem_cons_of_mem _ hc₁, hP₁⟩

theorem num_succ_calls_updateFirst_false {cid : Nat} {calls calls' : List Call}
    (h : updateFirst cid (recordReply false) calls = some calls') :
    num_succ_calls calls' = num_succ_calls calls := by
  induction calls generalizing calls' with
  | nil => simp [updateFirst] at h
  | cons c cs ih =>
    rw [updateFirst] at h
    split at h
    · cases h
      simp only [num_succ_calls, List.filter_cons, recordReply_false_num_success]
      split <;> simp
    · rw [Option.map_eq_some'] at h
      obtain ⟨cs', hcs', rfl⟩ := h
      have hrec := ih hcs'
      simp only [num_succ_calls, List.filter_cons] at *
      split <;> simp [hrec]

theorem num_fail_calls_pos_of_exists {calls : List Call}
    (h : ∃ c ∈ calls, 0 < c.num_fail) : 0 < num_fail_calls calls := by
  simp only [num_fail_calls, List.length_pos, ne_eq, List.filter_eq_nil_iff]
  push_neg
  simpa using h

theorem all_succ_of_num_succ_calls_eq {calls : List Call}
    (h : num_succ_calls calls = calls.length) : ∀ c ∈ calls, 0 < c.num_success := by
  intro c hc
  rw [num_succ_calls] at h
  have heq := (List.filter_sublist (p := fun c => c.num_success > 0) calls).eq_of_length h
  have := List.mem_filter.mp (heq ▸ hc)
  simpa using this.2

/-- Inversion of `prepare_received`: a successful run demands the phase
assertion, rewrites exactly the matched prepare record, and yields the
phase computed by the all-successes check overridden by the any-failure
check. -/
theorem prepare_received_some_inv {s : TransactionState} {b : Bool}
    {cid : Nat} {s' : TransactionState}
    (h : s.prepare_received b cid = some s') :
    (s.transaction_status = .Preparing ∨ s.transaction_status = .Aborting) ∧
    ∃ calls, updateFirst cid (recordReply b) s.pending_prepare_calls = some calls ∧
      s'.pending_prepare_calls = calls ∧
      s'.pending_abort_calls = s.pending_abort_calls ∧
      s'.pending_commit_calls = s.pending_commit_calls ∧
      s'.total_number_of_children = s.total_number_of_children ∧
      s'.transaction_status =
        (if 0 < num_fail_calls calls then TransactionStatus.Aborting
         else if num_succ_calls calls = s.total_number_of_children then
           TransactionStatus.Committing
         else s.transaction_status) := by
  by_cases hst : s.transaction_status = .Preparing ∨ s.transaction_status = .Aborting
  · rw [TransactionState.prepare_received, if_pos hst, Option.map_eq_some'] at h
    obtain ⟨calls, hu, hf⟩ := h
    refine ⟨hst, calls, hu, ?_⟩
    subst hf
    by_cases h₁ : num_succ_calls calls = s.total_number_of_children <;>
      by_cases h₂ : 0 < num_fail_calls calls <;>
        simp [h₁, h₂]
  · rw [TransactionState.prepare_received, if_neg hst] at h
    exact absurd h (by simp)

/-- Inversion of `abort_received`. -/
theorem abort_received_some_inv {s : TransactionState} {b : Bool}
    {cid : Nat} {s' : TransactionState}
    (h : s.abort_received b cid = some s') :
    s.transaction_status = .Aborting ∧
    ∃ calls, updateFirst cid (recordReply b) s.pending_abort_calls = some calls ∧
      s'.pending_abort_calls = calls ∧
      s'.pending_prepare_calls = s.pending_prepare_calls ∧
      s'.pending_commit_calls = s.pending_commit_calls ∧
      s'.total_number_of_children = s.total_number_of_children ∧
      s'.transaction_status =
        (if num_succ_calls calls = s.total_number_of_children then
           TransactionStatus.Aborted
         else TransactionStatus.Aborting) := by
  by_cases hst : s.transaction_status = .Aborting
  · rw [TransactionState.abort_received, if_pos hst, Option.map_eq_some'] at h
    obtain ⟨calls, hu, hf⟩ := h
    refine ⟨hst, calls, hu, ?_⟩
    subst hf
    by_cases h₁ : num_succ_calls calls = s.total_number_of_children <;>
      simp [h₁, hst]
  · rw [TransactionState.abort_received, if_neg hst] at h
    exact absurd h (by simp)

/-- Inversion of `commit_received`. -/
theorem commit_received_some_inv {s : TransactionState} {b : Bool}
    {cid : Nat} {s' : TransactionState}
    (h : s.commit_received b cid = some s') :
    s.transaction_status = .Committing ∧
    ∃ calls, updateFirst cid (recordReply b) s.pending_commit_calls = some calls ∧
      s'.pending_commit_calls = calls ∧
      s'.pending_prepare_calls = s.pending_prepare_calls ∧
      s'.pending_abort_calls = s.pending_abort_calls ∧
      s'.total_number_of_children = s.total_number_of_children ∧
      s'.transaction_status =
        (if num_succ_calls calls = s.total_number_of_children then
           TransactionStatus.Committed
         else TransactionStatus.Committing) := by
  by_cases hst : s.transaction_status = .Committing
  · rw [TransactionState.commit_received, if_pos hst, Option.map_eq_some'] at h
    obtain ⟨calls, hu, hf⟩ := h
    refine ⟨hst, calls, hu, ?_⟩
    subst hf
    by_cases h₁ : num_succ_calls calls = s.total_number_of_children <;>
      simp [h₁, hst]
  · rw [TransactionState.commit_received, if_neg hst] at h
    exact absurd h (by simp)

end Dex

/-! ### Claim theorems -/

/-- Claim C1: negatives are sticky in the prepare phase. For a transaction
in phase `Preparing` or `Aborting` whose prepare records include one with
`failures > 0`, processing any further prepare reply via `prepare_received`
leaves the phase `Aborting` — in particular a final positive reply that
makes every prepare record successful still yields `Aborting`, never
`Committing`. -/
theorem C1_negatives_sticky (s : Dex.TransactionState) (b : Bool) (cid : Nat)
    (s' : Dex.TransactionState)
    (hphase : s.transaction_status = Dex.TransactionStatus.Preparing ∨
      s.transaction_status = Dex.TransactionStatus.Aborting)
    (hex : ∃ c ∈ s.pending_prepare_calls, 0 < c.num_fail)
    (h : s.prepare_received b cid = some s') :
    s'.transaction_status = Dex.TransactionStatus.Aborting := by
  obtain ⟨hst, calls, hu, hpend, hab, hcm, htot, hstat⟩ :=
    Dex.prepare_received_some_inv h
  have hex' : ∃ c ∈ calls, 0 < c.num_fail :=
    Dex.updateFirst_exists_mem _
      (fun c hc => lt_of_lt_of_le hc (Dex.recordReply_num_fail_le b c)) hu hex
  rw [hstat, if_pos (Dex.num_fail_calls_pos_of_exists hex')]

/-- Witness for C1: at `exC1` (participant 2 voted "no" earlier) the final
positive reply gives every prepare record a success, yet the phase stays
`Aborting`. -/
theorem C1_negatives_sticky_witness :
    Dex.num_succ_calls exC1'.pending_prepare_calls = 2 ∧
    exC1'.transaction_status = Dex.TransactionStatus.Aborting :=
  ⟨by decide,
   C1_negatives_sticky exC1 true 2 exC1' (Or.inr (by decide)) (by decide) (by decide)⟩

/-- Claim C2: unanimity gates every phase-completing transition. Assuming
each phase's record vector has exactly `total_number_of_children` records
(as `TransactionState::new` builds them), `prepare_received` yields
`Committing` only when every prepare record has a success, `abort_received`
yields `Aborted` only when every abort record has a success, and
`commit_received` yields `Committed` only when every commit record has a
success. -/
theorem C2_unanimity :
    (∀ (s : Dex.TransactionState) (b : Bool) (cid : Nat) (s' : Dex.TransactionState),
      s.pending_prepare_calls.length = s.total_number_of_children →
      s.prepare_received b cid = some s' →
      s'.transaction_status = Dex.TransactionStatus.Committing →
      ∀ c ∈ s'.pending_prepare_calls, 0 < c.num_success) ∧
    (∀ (s : Dex.TransactionState) (b : Bool) (cid : Nat) (s' : Dex.TransactionState),
      s.pending_abort_calls.length = s.total_number_of_children →
      s.abort_received b cid = some s' →
      s'.transaction_status = Dex.TransactionStatus.Aborted →
      ∀ c ∈ s'.pending_abort_calls, 0 < c.num_success) ∧
    (∀ (s : Dex.TransactionState) (b : Bool) (cid : Nat) (s' : Dex.TransactionState),
      s.pending_commit_calls.length = s.total_number_of_children →
      s.commit_received b cid = some s' →
      s'.transaction_status = Dex.TransactionStatus.Committed →
      ∀ c ∈ s'.pending_commit_calls, 0 < c.num_success) := by
  refine ⟨?_, ?_, ?_⟩
  · intro s b cid s' hlen h hcomm c hc
    obtain ⟨hst, calls, hu, hpend, hab, hcm, htot, hstat⟩ :=
      Dex.prepare_received_some_inv h
    rw [hstat] at hcomm
    by_cases h₂ : 0 < Dex.num_fail_calls calls
    · rw [if_pos h₂] at hcomm
      exact absurd hcomm (by simp)
    · rw [if_neg h₂] at hcomm
      by_cases h₁ : Dex.num_succ_calls calls = s.total_number_of_children
      · have hlen' : calls.length = s.total_number_of_children :=
          (Dex.updateFirst_length hu).trans hlen
        exact Dex.all_succ_of_num_succ_calls_eq (h₁.trans hlen'.symm) c (hpend ▸ hc)
      · rw [if_neg h₁] at hcomm
        rcases hst with hst | hst <;> rw [hst] at hcomm <;> exact absurd hcomm (by simp)
  · intro s b cid s' hlen h habort c hc
    obtain ⟨hst, calls, hu, hpend, hpp, hcm, htot, hstat⟩ :=
      Dex.abort_received_some_inv h
    rw [hstat] at habort
    by_cases h₁ : Dex.num_succ_calls calls = s.total_number_of_children
    · have hlen' : calls.length = s.total_number_of_children :=
        (Dex.updateFirst_length hu).trans hlen
      exact Dex.all_succ_of_num_succ_calls_eq (h₁.trans hlen'.symm) c (hpend ▸ hc)
    · rw [if_neg h₁] at habort
      exact absurd habort (by simp)
  · intro s b cid s' hlen h hcommit c hc
    obtain ⟨hst, calls, hu, hpend, hpp, hab, htot, hstat⟩ :=
      Dex.commit_received_some_inv h
    rw [hstat] at hcommit
    by_cases h₁ : Dex.num_succ_calls calls = s.total_number_of_children
    · have hlen' : calls.length = s.total_number_of_children :=
        (Dex.updateFirst_length hu).trans hlen
      exact Dex.all_succ_of_num_succ_calls_eq (h₁.trans hlen'.symm) c (hpend ▸ hc)
    · rw [if_neg h₁] at hcommit
      exact absurd hcommit (by simp)

/-- Witness for C2: the lone positive prepare reply at `exC2` completes the
phase to `Committing`, and the theorem then certifies the (sole) prepare
record's success counter is positive. -/
theorem C2_unanimity_witness :
    exC2'.transaction_status = Dex.TransactionStatus.Committing ∧
    0 < (Dex.Call.mk 1 "prepare_transaction" [] 1 1 0).num_success :=
  ⟨by decide,
   C2_unanimity.1 exC2 true 1 exC2' (by decide) (by decide) (by decide) _ (by decide)⟩

/-- Claim C5: prepare replies are accepted only while the phase is
`Preparing` or `Aborting`. In any other phase (`Committing`, `Committed`,
`Aborted`) the handler's assertion fires and the reply message traps,
rolling its mutations back (`none` here): the phase and every counter are
left unchanged, so a stale negative reply cannot disturb a `Committing`
transaction on its way to `Committed`. -/
theorem C5_stale_prepare_reply_dropped (s : Dex.TransactionState) (b : Bool)
    (cid : Nat) :
    ((s.transaction_status = Dex.TransactionStatus.Committing ∨
      s.transaction_status = Dex.TransactionStatus.Committed ∨
      s.transaction_status = Dex.TransactionStatus.Aborted) →
      s.prepare_received b cid = none) ∧
    (∀ s', s.prepare_received b cid = some s' →
      s.transaction_status = Dex.TransactionStatus.Preparing ∨
      s.transaction_status = Dex.TransactionStatus.Aborting) := by
  constructor
  · intro hst
    have hne : ¬(s.transaction_status = Dex.TransactionStatus.Preparing ∨
        s.transaction_status = Dex.TransactionStatus.Aborting) := by
      rcases hst with h | h | h <;> rw [h] <;> decide
    rw [Dex.TransactionState.prepare_received, if_neg hne]
  · intro s' h
    exact (Dex.prepare_received_some_inv h).1

/-- Witness for C5: at the `Committing` state `exC5` a stale negative
prepare reply is dropped (the handler traps and the message's mutations are
rolled back). -/
theorem C5_stale_prepare_reply_dropped_witness :
    exC5.transaction_status = Dex.TransactionStatus.Committing ∧
    exC5.prepare_received false 1 = none :=
  ⟨by decide, (C5_stale_prepare_reply_dropped exC5 false 1).1 (Or.inl (by decide))⟩

/-- Counterexample to claim C6 as stated: at the one-participant
`Preparing` transaction `exC6` a transport failure of the prepare call
alone (the oracle answers `error`, decoded as `success = false`) drives
`transaction_loop` to phase `Aborting` — the failure did not merely
increment a failures counter. -/
theorem C6_counterexample :
    (mapGet exC6.transactions 0).map Dex.TransactionState.transaction_status =
      some Dex.TransactionStatus.Preparing ∧
    (Dex.transaction_loop exRawErr 6000000000 exC6 0).map (fun p => p.2.state) =
      some Dex.TransactionStatus.Aborting := by
  constructor <;> decide

/-- Claim C6 (amended): a transport failure of an abort or commit call only
increments the failures counter of its record — provided that phase's
records are not yet unanimously successful (always so while such a call is
outstanding), the phase and the success counts are unchanged and the
record, still without a success, is retried on a later tick. A transport
failure of a prepare call, by contrast, is fed to `prepare_received` as
`success = false`, indistinguishable from an explicit negative vote: it
also flips a `Preparing` transaction to `Aborting`. -/
theorem C6_transport_failure_effects (s : Dex.TransactionState) (cid : Nat)
    (s' : Dex.TransactionState) :
    (Dex.num_succ_calls s.pending_abort_calls < s.total_number_of_children →
      s.abort_received false cid = some s' →
      s'.transaction_status = s.transaction_status ∧
      Dex.num_succ_calls s'.pending_abort_calls =
        Dex.num_succ_calls s.pending_abort_calls) ∧
    (Dex.num_succ_calls s.pending_commit_calls < s.total_number_of_children →
      s.commit_received false cid = some s' →
      s'.transaction_status = s.transaction_status ∧
      Dex.num_succ_calls s'.pending_commit_calls =
        Dex.num_succ_calls s.pending_commit_calls) ∧
    (s.transaction_status = Dex.TransactionStatus.Preparing →
      s.prepare_received false cid = some s' →
      s'.transaction_status = Dex.TransactionStatus.Aborting) := by
  refine ⟨?_, ?_, ?_⟩
  · intro hlt h
    obtain ⟨hst, calls, hu, hpend, hpp, hcm, htot, hstat⟩ :=
      Dex.abort_received_some_inv h
    have hnum := Dex.num_succ_calls_updateFirst_false hu
    have hne : ¬(Dex.num_succ_calls calls = s.total_number_of_children) := by
      rw [hnum]
      exact Nat.ne_of_lt hlt
    refine ⟨?_, ?_⟩
    · rw [hstat, if_neg hne, hst]
    · rw [hpend, hnum]
  · intro hlt h
    obtain ⟨hst, calls, hu, hpend, hpp, hab, htot, hstat⟩ :=
      Dex.commit_received_some_inv h
    have hnum := Dex.num_succ_calls_updateFirst_false hu
    have hne : ¬(Dex.num_succ_calls calls = s.total_number_of_children) := by
      rw [hnum]
      exact Nat.ne_of_lt hlt
    refine ⟨?_, ?_⟩
    · rw [hstat, if_neg hne, hst]
    · rw [hpend, hnum]
  · intro hpre h
    obtain ⟨hst, calls, hu, hpend, hab, hcm, htot, hstat⟩ :=
      Dex.prepare_received_some_inv h
    have hex : ∃ c ∈ calls, 0 < c.num_fail :=
      Dex.updateFirst_exists_updated _
        (fun c => by rw [Dex.recordReply_false_num_fail]; omega) hu
    rw [hstat, if_pos (Dex.num_fail_calls_pos_of_exists hex)]

/-- Witness for the amended C6: a transport failure of the outstanding
abort call at `exC6a` leaves the phase and the success count unchanged. -/
theorem C6_transport_failure_effects_witness :
    exC6a'.transaction_status = exC6a.transaction_status ∧
    Dex.num_succ_calls exC6a'.pending_abort_calls =
      Dex.num_succ_calls exC6a.pending_abort_calls := by
  have h := (C6_transport_failure_effects exC6a 1 exC6a').1 (by decide) (by decide)
  exact h

/-- Claim C7 evaluated at its failing input: the two-participant
transaction `exC7` (one "yes" vote in, no recorded failure) is moved to
`Aborting` by `transaction_loop` because its prepare phase timed out; the
straggler positive prepare reply from participant 2 then makes every
prepare record successful and `prepare_received` moves the phase onward to
`Committing` — contradicting that a transaction in `Aborting` can only ever
reach `Aborted`. -/
theorem C7_timeout_then_straggler_commits :
    (Dex.transaction_loop exRawErr 11000000000 exC7 0).map (fun p => p.2.state) =
      some Dex.TransactionStatus.Aborting ∧
    ((Dex.transaction_loop exRawErr 11000000000 exC7 0).bind (fun p =>
        (mapGet p.1.transactions 0).bind (fun s => s.prepare_received true 2))).map
      Dex.TransactionState.transaction_status =
      some Dex.TransactionStatus.Committing := by
  constructor <;> decide

/-- Claim C3: case analysis of the participant's prepare, plus idempotence.
If the resource is `Prepared tid` for the same transaction the call returns
`true`; if it is `Prepared` for a different transaction it returns `false`
and leaves the whole lock table untouched; otherwise (absent / `Aborted` /
`Comitted`) the reply is the validator's verdict, the resource becoming
`Prepared tid` exactly on `true` and the state untouched on `false`.
Consequently two identical prepare calls in a row return the same reply and
the second leaves `LockTable[resource]` as the first did. -/
theorem C3_prepare_cases_and_idempotence {T : Type} (tid : Nat)
    (resource : String) (delta : T) (validator : String → T → Bool)
    (state : LedgerToken1.LockTable) :
    (mapGet state resource = some (.Prepared tid) →
      (LedgerToken1.prepare_transaction tid resource delta validator state).1 = true) ∧
    (∀ tid', tid' ≠ tid →
      mapGet state resource = some (.Prepared tid') →
      LedgerToken1.prepare_transaction tid resource delta validator state =
        (false, state)) ∧
    ((∀ tid', mapGet state resource ≠ some (.Prepared tid')) →
      (LedgerToken1.prepare_transaction tid resource delta validator state).1 =
        validator resource delta ∧
      (validator resource delta = true →
        mapGet (LedgerToken1.prepare_transaction tid resource delta validator
          state).2 resource = some (.Prepared tid)) ∧
      (validator resource delta = false →
        LedgerToken1.prepare_transaction tid resource delta validator state =
          (false, state))) ∧
    ((LedgerToken1.prepare_transaction tid resource delta validator
        (LedgerToken1.prepare_transaction tid resource delta validator state).2).1 =
      (LedgerToken1.prepare_transaction tid resource delta validator state).1 ∧
     mapGet (LedgerToken1.prepare_transaction tid resource delta validator
        (LedgerToken1.prepare_transaction tid resource delta validator state).2).2
        resource =
      mapGet (LedgerToken1.prepare_transaction tid resource delta validator
        state).2 resource) := by
  refine ⟨?_, ?_, ?_, ?_⟩
  · intro h
    simp [LedgerToken1.prepare_transaction, h]
  · intro tid' hne h
    have h' : ¬(tid = tid') := fun hh => hne hh.symm
    simp [LedgerToken1.prepare_transaction, h, h']
  · intro hno
    cases hget : mapGet state resource with
    | none =>
      by_cases hv : validator resource delta <;>
        simp [LedgerToken1.prepare_transaction, hget, hv, mapGet_mapInsert_self]
    | some ts =>
      cases ts with
      | Prepared t => exact absurd hget (hno t)
      | Aborted =>
        by_cases hv : validator resource delta <;>
          simp [LedgerToken1.prepare_transaction, hget, hv, mapGet_mapInsert_self]
      | Comitted =>
        by_cases hv : validator resource delta <;>
          simp [LedgerToken1.prepare_transaction, hget, hv, mapGet_mapInsert_self]
  · cases hget : mapGet state resource with
    | none =>
      by_cases hv : validator resource delta <;>
        simp [LedgerToken1.prepare_transaction, hget, hv, mapGet_mapInsert_self]
    | some ts =>
      cases ts with
      | Prepared t =>
        by_cases ht : tid = t
        · simp [LedgerToken1.prepare_transaction, hget, ht, mapGet_mapInsert_self]
        · simp [LedgerToken1.prepare_transaction, hget, ht]
      | Aborted =>
        by_cases hv : validator resource delta <;>
          simp [LedgerToken1.prepare_transaction, hget, hv, mapGet_mapInsert_self]
      | Comitted =>
        by_cases hv : validator resource delta <;>
          simp [LedgerToken1.prepare_transaction, hget, hv, mapGet_mapInsert_self]

/-- Witness for C3: re-preparing the resource transaction 7 already holds
returns `true`, and a conflicting transaction 8 is rejected with the table
untouched. -/
theorem C3_prepare_cases_and_idempotence_witness :
    (LedgerToken1.prepare_transaction 7 "ICP" (5 : Int)
      (fun _ _ => true) exC3lock).1 = true ∧
    LedgerToken1.prepare_transaction 8 "ICP" (5 : Int)
      (fun _ _ => true) exC3lock = (false, exC3lock) :=
  ⟨(C3_prepare_cases_and_idempotence 7 "ICP" (5 : Int) (fun _ _ => true)
      exC3lock).1 (by decide),
   (C3_prepare_cases_and_idempotence 8 "ICP" (5 : Int) (fun _ _ => true)
      exC3lock).2.1 7 (by decide) (by decide)⟩

/-- Claim C4: the participant's commit succeeds exactly when the resource is
`Prepared tid` — then the mutator is applied and the lock becomes
`Comitted` — and in every other lock state (including a duplicate commit on
an already-`Comitted` resource) the `assert_eq!` fires: the call traps
without applying the mutator, so duplicate commits are detected rather than
re-applied. -/
theorem C4_commit_requires_prepared {T σ : Type} (tid : Nat)
    (resource : String) (delta : T) (mutator : String → T → σ → σ)
    (state : LedgerToken1.LockTable) (store : σ) :
    (mapGet state resource = some (.Prepared tid) →
      LedgerToken1.commit_transaction tid resource delta mutator state store =
        some (mapInsert state resource .Comitted,
              mutator resource delta store)) ∧
    (mapGet state resource ≠ some (.Prepared tid) →
      LedgerToken1.commit_transaction tid resource delta mutator state store =
        none) ∧
    (mapGet state resource = some .Comitted →
      LedgerToken1.commit_transaction tid resource delta mutator state store =
        none) := by
  refine ⟨fun h => ?_, fun h => ?_, fun h => ?_⟩
  · simp [LedgerToken1.commit_transaction, h]
  · simp [LedgerToken1.commit_transaction, h]
  · have hne : mapGet state resource ≠ some (.Prepared tid) := by
      rw [h]
      simp
    simp [LedgerToken1.commit_transaction, hne]

/-- Witness for C4: committing the prepared resource applies the mutator
(one tick on a counter store) and commits the lock; the duplicate commit on
an already-committed resource traps. -/
theorem C4_commit_requires_prepared_witness :
    LedgerToken1.commit_transaction 3 "ICP" (5 : Int)
      (fun _ _ n => n + 1) exC4lock (0 : Nat) =
      some ([("ICP", .Comitted)], 1) ∧
    LedgerToken1.commit_transaction 3 "ICP" (5 : Int)
      (fun _ _ n => n + 1) exC4dup (0 : Nat) = none := by
  constructor
  · have h := (C4_commit_requires_prepared 3 "ICP" (5 : Int)
      (fun _ _ n => n + 1) exC4lock (0 : Nat)).1 (by decide)
    rw [h]
    rfl
  · exact (C4_commit_requires_prepared 3 "ICP" (5 : Int)
      (fun _ _ n => n + 1) exC4dup (0 : Nat)).2.2 (by decide)

/-- Claim C8: the participant's abort is unconditional, idempotent and
always succeeds (it returns nothing and never traps). It sets the resource
to `Aborted` exactly when it is `Prepared tid` for this very transaction;
in every other state — `Free` (absent), `Aborted`, `Comitted`, or
`Prepared` by a different transaction — the table is untouched, so it never
releases another transaction's lock; repeating it changes nothing more, and
no other resource is ever affected. -/
theorem C8_abort_unconditional_idempotent (tid : Nat) (resource : String)
    (state : LedgerToken1.LockTable) :
    (mapGet state resource = some (.Prepared tid) →
      LedgerToken1.abort_transaction tid resource state =
        mapInsert state resource .Aborted) ∧
    (mapGet state resource ≠ some (.Prepared tid) →
      LedgerToken1.abort_transaction tid resource state = state) ∧
    (LedgerToken1.abort_transaction tid resource
        (LedgerToken1.abort_transaction tid resource state) =
      LedgerToken1.abort_transaction tid resource state) ∧
    (∀ k, k ≠ resource →
      mapGet (LedgerToken1.abort_transaction tid resource state) k =
        mapGet state k) := by
  refine ⟨fun h => ?_, fun h => ?_, ?_, ?_⟩
  · simp [LedgerToken1.abort_transaction, h]
  · simp [LedgerToken1.abort_transaction, h]
  · by_cases h : mapGet state resource = some (.Prepared tid)
    · have h₂ : mapGet (mapInsert state resource
          LedgerToken1.TransactionStatus.Aborted) resource =
          some LedgerToken1.TransactionStatus.Aborted :=
        mapGet_mapInsert_self state resource _
      have h₃ : mapGet (mapInsert state resource
          LedgerToken1.TransactionStatus.Aborted) resource ≠
          some (.Prepared tid) := by
        rw [h₂]
        simp
      simp [LedgerToken1.abort_transaction, h, h₃]
    · simp [LedgerToken1.abort_transaction, h]
  · intro k hk
    by_cases h : mapGet state resource = some (.Prepared tid)
    · simp [LedgerToken1.abort_transaction, h, mapGet_mapInsert_ne _ _ _ _ hk]
    · simp [LedgerToken1.abort_transaction, h]

/-- Witness for C8: aborting the prepared resource as its owner commits the
lock to `Aborted`; aborting it as transaction 4 (which never prepared it)
leaves transaction 3's lock in place. -/
theorem C8_abort_unconditional_idempotent_witness :
    LedgerToken1.abort_transaction 3 "ICP" exC4lock = [("ICP", .Aborted)] ∧
    LedgerToken1.abort_transaction 4 "ICP" exC4lock = exC4lock := by
  constructor
  · have h := (C8_abort_unconditional_idempotent 3 "ICP" exC4lock).1 (by decide)
    rw [h]
    rfl
  · exact (C8_abort_unconditional_idempotent 4 "ICP" exC4lock).2.1 (by decide)

/-- Claim C9: the balance validator/mutator contract. `prepare_balance`
returns `true` exactly when the resource has a registered balance `b` and
the checked signed addition `b + delta` stays within `u64` (no underflow or
overflow); and whenever it returns `true`, on the unchanged store
`commit_balance` cannot fail: it produces a store in which the resource's
balance is `b + delta` and every other balance is unchanged. -/
theorem C9_balance_validator_mutator_contract
    (balances : LedgerToken1.Balances) (resource : String) (delta : Int) :
    (LedgerToken1.prepare_balance balances resource delta = true ↔
      ∃ b, mapGet balances resource = some b ∧
        (LedgerToken1.checked_add_signed b delta).isSome = true) ∧
    (LedgerToken1.prepare_balance balances resource delta = true →
      ∀ b, mapGet balances resource = some b →
        ∃ nb, LedgerToken1.checked_add_signed b delta = some nb ∧
          LedgerToken1.commit_balance balances resource delta =
            some (mapInsert balances resource nb) ∧
          (nb : Int) = (b : Int) + delta ∧
          mapGet (mapInsert balances resource nb) resource = some nb ∧
          (∀ k, k ≠ resource →
            mapGet (mapInsert balances resource nb) k = mapGet balances k)) := by
  constructor
  · cases hget : mapGet balances resource with
    | none => simp [LedgerToken1.prepare_balance, hget]
    | some b => simp [LedgerToken1.prepare_balance, hget]
  · intro hp b hget
    rw [LedgerToken1.prepare_balance, hget] at hp
    obtain ⟨nb, hnb⟩ := Option.isSome_iff_exists.mp hp
    refine ⟨nb, hnb, ?_, ?_, mapGet_mapInsert_self _ _ _,
      fun k hk => mapGet_mapInsert_ne _ _ _ _ hk⟩
    · simp [LedgerToken1.commit_balance, hget, hnb]
    · rw [LedgerToken1.checked_add_signed] at hnb
      split at hnb
      case isTrue hcond =>
        cases hnb
        exact Int.toNat_of_nonneg hcond.1
      case isFalse hcond => exact absurd hnb (by simp)

/-- Witness for C9: debiting 1337 from the 10000-unit ICP balance is
accepted by the validator and committed to 8663 by the mutator. -/
theorem C9_balance_validator_mutator_contract_witness :
    LedgerToken1.prepare_balance exC9bal "ICP" (-1337) = true ∧
    LedgerToken1.commit_balance exC9bal "ICP" (-1337) = some [("ICP", 8663)] := by
  have h := (C9_balance_validator_mutator_contract exC9bal "ICP" (-1337)).2
    (by decide) 10000 (by decide)
  obtain ⟨nb, hnb, hcommit, hval, -, -⟩ := h
  have hnb' : nb = 8663 := by
    have hc : LedgerToken1.checked_add_signed 10000 (-1337) = some 8663 := by decide
    rw [hc] at hnb
    exact (Option.some_inj.mp hnb).symm
  subst hnb'
  refine ⟨by decide, ?_⟩
  rw [hcommit]
  rfl

/-- Claim C10: the coordinator's public entry points are partial in the
transaction id. For an id absent from the transaction table, both
`get_transaction_state` and `transaction_loop` unwrap a failed map lookup
and trap (`none`), whatever the clock or the transport does — they are safe
only for ids previously registered by transaction creation. -/
theorem C10_entry_points_partial_in_tid (l : Dex.TransactionList) (tid : Nat)
    (raw : Dex.Call → Dex.RawResult) (now : Nat)
    (h : mapGet l.transactions tid = none) :
    Dex.get_transaction_state l tid = none ∧
    Dex.transaction_loop raw now l tid = none := by
  constructor
  · rw [Dex.get_transaction_state, h]
    rfl
  · rw [Dex.transaction_loop, h]
    rfl

/-- Witness for C10: id 5 is absent from the empty table, and both entry
points trap on it. -/
theorem C10_entry_points_partial_in_tid_witness :
    Dex.get_transaction_state exC10 5 = none ∧
    Dex.transaction_loop exRawErr 0 exC10 5 = none :=
  C10_entry_points_partial_in_tid exC10 5 exRawErr 0 (by decide)
